import Mathlib

/-!
Verification development for the restson REST client library
(sources: src/lib.rs, src/blocking.rs, src/resolvers.rs).

The Rust code is shallowly embedded: pure request-construction logic is
translated to Lean functions, the asynchronous transport boundary is made
explicit by passing the transport outcome (and the outcome of the timeout
race) as parameters, and the external collaborator crates (url, http/hyper
header types, serde_json, tokio) are modelled by small executable Lean
functions of their documented behaviour on the inputs that the library
exercises.
-/

namespace Restson

/-! ### Model of http::HeaderMap (hyper::header::HeaderMap)

Header names are case-insensitive; hyper normalises them to lowercase.
`insert` has last-write-wins semantics: the previous value for the same
(normalised) name is discarded.  Entry order is not relevant to any claim
and is not modelled faithfully (a replaced entry moves to the end). -/
abbrev HeaderMap := List (String × String)

/-- ASCII lowercasing of a string, defined over the character list so
that it evaluates by kernel reduction; hyper normalises header names
exactly this way (ASCII uppercase to lowercase). -/
def lowerStr (s : String) : String := String.mk (s.data.map Char.toLower)

namespace HeaderMap

/-- First value stored under the (already normalised) key k. -/
def lookupKey (m : HeaderMap) (k : String) : Option String :=
  match m with
  | [] => none
  | p :: tl => if p.1 = k then some p.2 else lookupKey tl k

/-- Entries of m whose key differs from the (already normalised) key k. -/
def removeKey (m : HeaderMap) (k : String) : HeaderMap :=
  match m with
  | [] => []
  | p :: tl => if p.1 = k then removeKey tl k else p :: removeKey tl k

/-- Model of HeaderMap::insert: keys are stored lowercase, unique; the
previous value for the same name is replaced (last write wins).  Entry
order is irrelevant to this development and not modelled faithfully. -/
def insert (m : HeaderMap) (name value : String) : HeaderMap :=
  removeKey m (lowerStr name) ++ [(lowerStr name, value)]

/-- Model of HeaderMap lookup by name (case-insensitive). -/
def get (m : HeaderMap) (name : String) : Option String :=
  lookupKey m (lowerStr name)

/-- Model of HeaderMap::contains_key. -/
def hasKey (m : HeaderMap) (name : String) : Bool :=
  (lookupKey m (lowerStr name)).isSome

/-- Keys already lowercase and pairwise distinct: the invariant of every
map built from HeaderMap::new by insert. -/
def WF (m : HeaderMap) : Prop :=
  (m.map Prod.fst).Nodup ∧ ∀ p ∈ m, lowerStr p.1 = p.1

end HeaderMap

/-! ### Model of http::HeaderValue -/

/-- A character is legal inside a header value.  The http crate accepts a
byte b iff b = 9 (tab) or 32 ≤ b ≠ 127; on UTF-8 text this is equivalent
to the same condition on the scalar values, since every byte of a
multi-byte UTF-8 sequence is ≥ 128 and ≠ 127. -/
def isValidHeaderValueChar (c : Char) : Bool :=
  c = '\t' ∨ (32 ≤ c.toNat ∧ c.toNat ≠ 127)

/-- Model of HeaderValue::from_str: succeeds (returning the same text) iff
every character is legal in a header value. -/
def headerValueFromStr (s : String) : Option String :=
  if s.toList.all isValidHeaderValueChar then some s else none

/-! ### Model of std::time::Duration (as a count of nanoseconds) -/

abbrev Duration := Nat

/-- Model of Duration::from_secs. -/
def Duration.from_secs (s : Nat) : Duration := s * 1000000000

/-- Value of u64::MAX; Duration.from_secs u64Max is the "effectively
infinite" timeout sentinel used by the client. -/
def u64Max : Nat := 2 ^ 64 - 1

/-! ### Error type (restson::Error)

The payloads of collaborator error types (serde_json::Error, hyper::Error,
std::io::Error) are opaque to this library; they are modelled as Nat
codes. -/
inductive Error where
  | HttpClientError
  | UrlError
  | SerializeParseError (err : Nat)
  | DeserializeParseError (err : Nat) (body : String)
  | RequestError
  | HyperError (err : Nat)
  | IoError (err : Nat)
  | HttpError (status : Nat) (body : String)
  | TimeoutError
  | InvalidValue
deriving DecidableEq, Repr

instance {ε α : Type} [DecidableEq ε] [DecidableEq α] :
    DecidableEq (Except ε α) := fun x y =>
  match x, y with
  | .ok a, .ok b =>
    if h : a = b then .isTrue (by rw [h])
    else .isFalse fun hc => h (Except.ok.inj hc)
  | .error a, .error b =>
    if h : a = b then .isTrue (by rw [h])
    else .isFalse fun hc => h (Except.error.inj hc)
  | .ok _, .error _ => .isFalse fun hc => Except.noConfusion hc
  | .error _, .ok _ => .isFalse fun hc => Except.noConfusion hc

/-- HTTP method (the subset of hyper::Method the library uses). -/
inductive Method where
  | GET | POST | PUT | PATCH | DELETE
deriving DecidableEq, Repr

/-! ### Model of the url crate (collaborator)

The library delegates URL parsing, reference resolution (join) and query
serialisation to the url crate.  The model below covers hierarchical
URLs of the shape scheme://host[/path][?query][#fragment], which is the
shape the library's base URLs and resolved paths take. -/

/-- Split a character list at the first occurrence of sep (dropped);
returns the part before it and, when present, the part after it. -/
def breakAt (sep : Char) : List Char → List Char × Option (List Char)
  | [] => ([], none)
  | c :: cs =>
    if c = sep then ([], some cs)
    else
      let r := breakAt sep cs
      (c :: r.1, r.2)

def isSchemeChar (c : Char) : Bool :=
  c.isAlphanum || c = '+' || c = '-' || c = '.'

def validScheme : List Char → Bool
  | [] => false
  | c :: cs => c.isAlpha && cs.all isSchemeChar

structure Url where
  scheme : String
  host : String
  path : String
  query : Option String
  fragment : Option String
deriving DecidableEq, Repr

/-- Modelled collaborator: url::Url::parse, restricted to hierarchical
absolute URLs scheme://host[/path][?query][#fragment] with a nonempty
host; the empty path is normalised to a single slash, the scheme is
lowercased.  Relative references and malformed strings are rejected. -/
def Url.parse (s : String) : Option Url :=
  match breakAt ':' s.toList with
  | (sch, some rest) =>
    if validScheme sch then
      match rest with
      | '/' :: '/' :: rest =>
        let (beforeFrag, frag) := breakAt '#' rest
        let (beforeQ, q) := breakAt '?' beforeFrag
        let (host, pathOpt) := breakAt '/' beforeQ
        if host.isEmpty then none
        else
          some { scheme := lowerStr (String.mk sch)
                 host := String.mk host
                 path := "/" ++ String.mk (pathOpt.getD [])
                 query := q.map String.mk
                 fragment := frag.map String.mk }
      | _ => none
    else none
  | _ => none

/-- Stack step of RFC 3986 remove_dot_segments over a split path: single
and double dot segments are dropped (double dot also pops the previous
segment), and when final they leave a trailing slash (empty segment). -/
def rdsAux : List String → List String → List String
  | [], out => out.reverse
  | [s], out =>
    if s = "." then ("" :: out).reverse
    else if s = ".." then ("" :: out.tail).reverse
    else (s :: out).reverse
  | s :: rest, out =>
    if s = "." then rdsAux rest out
    else if s = ".." then rdsAux rest out.tail
    else rdsAux rest (s :: out)

/-- Segments of a character list between slashes (the empty list yields
one empty segment, like splitting an empty path). -/
def splitSlash : List Char → List (List Char)
  | [] => [[]]
  | c :: cs =>
    if c = '/' then [] :: splitSlash cs
    else
      match splitSlash cs with
      | [] => [[c]]
      | s :: ss => (c :: s) :: ss

/-- Joining of segments with slashes (inverse of splitSlash). -/
def joinSegs : List String → String
  | [] => ""
  | [s] => s
  | s :: ss => s ++ "/" ++ joinSegs ss

/-- RFC 3986 §5.2.4 remove_dot_segments for paths starting with a slash. -/
def removeDotSegments (p : String) : String :=
  "/" ++ joinSegs (rdsAux ((splitSlash (p.data.drop 1)).map String.mk) [])

/-- RFC 3986 §5.3.3 merge: base path up to and including its last slash,
followed by the reference path. -/
def mergePath (basePath ref : String) : String :=
  String.mk ((basePath.toList.reverse.dropWhile fun c => c ≠ '/').reverse) ++ ref

/-- Resolution of a relative reference against a hierarchical base
(RFC 3986 §5.2.2, the non-scheme cases). -/
def joinRelative (base : Url) (input : String) : Option Url :=
  let (beforeFrag, frag) := breakAt '#' input.toList
  let (bq, q) := breakAt '?' beforeFrag
  match bq with
  | '/' :: '/' :: rest =>
    let (host, pathOpt) := breakAt '/' rest
    if host.isEmpty then none
    else some { scheme := base.scheme
                host := String.mk host
                path := removeDotSegments ("/" ++ String.mk (pathOpt.getD []))
                query := q.map String.mk
                fragment := frag.map String.mk }
  | '/' :: _ =>
    some { base with path := removeDotSegments (String.mk bq)
                     query := q.map String.mk
                     fragment := frag.map String.mk }
  | [] =>
    some { base with
           query := match q with
                    | some qs => some (String.mk qs)
                    | none => base.query
           fragment := frag.map String.mk }
  | _ =>
    some { base with path := removeDotSegments (mergePath base.path (String.mk bq))
                     query := q.map String.mk
                     fragment := frag.map String.mk }

/-- Modelled collaborator: url::Url::join (RFC 3986 §5.2 reference
resolution) against a hierarchical absolute base. -/
def Url.join (base : Url) (input : String) : Option Url :=
  match breakAt ':' input.toList with
  | (sch, some _) =>
    if validScheme sch then Url.parse input else joinRelative base input
  | _ => joinRelative base input

/-- Rendering of a URL back to text (url::Url::as_str).  The final
re-parse of this text as a hyper::Uri in make_uri is modelled as the
identity on the rendered text. -/
def Url.as_str (u : Url) : String :=
  u.scheme ++ "://" ++ u.host ++ u.path
    ++ (match u.query with | some q => "?" ++ q | none => "")
    ++ (match u.fragment with | some f => "#" ++ f | none => "")

/-! ### UTF-8 bytes and form-urlencoding (collaborator) -/

/-- UTF-8 encoding of one scalar value as byte values. -/
def utf8Bytes (c : Char) : List Nat :=
  let n := c.toNat
  if n < 128 then [n]
  else if n < 2048 then [192 + n / 64, 128 + n % 64]
  else if n < 65536 then [224 + n / 4096, 128 + (n / 64) % 64, 128 + n % 64]
  else [240 + n / 262144, 128 + (n / 4096) % 64, 128 + (n / 64) % 64, 128 + n % 64]

/-- UTF-8 bytes of a string; (strBytes s).length models Rust String::len
(a byte count, not a character count). -/
def strBytes (s : String) : List Nat :=
  (s.toList.map utf8Bytes).flatten

def hexUpper (n : Nat) : Char :=
  if n < 10 then Char.ofNat (48 + n) else Char.ofNat (55 + n)

/-- Modelled collaborator: the form-urlencoded byte serialisation used by
url::form_urlencoded: ASCII alphanumerics and the asterisk, hyphen, dot
and underscore are copied, space becomes a plus sign, every other byte is
percent-encoded in uppercase hex. -/
def formByte (b : Nat) : List Char :=
  if b = 32 then ['+']
  else if (48 ≤ b ∧ b ≤ 57) ∨ (65 ≤ b ∧ b ≤ 90) ∨ (97 ≤ b ∧ b ≤ 122)
       ∨ b = 42 ∨ b = 45 ∨ b = 46 ∨ b = 95 then [Char.ofNat b]
  else ['%', hexUpper (b / 16), hexUpper (b % 16)]

def formUrlencode (s : String) : String :=
  String.mk ((strBytes s).map formByte).flatten

/-- Modelled collaborator: Url::query_pairs_mut().append_pair(k, v):
appends the form-urlencoded pair to the existing query string, preceded
by an ampersand when the existing query is nonempty. -/
def Url.appendPair (u : Url) (k v : String) : Url :=
  let pair := formUrlencode k ++ "=" ++ formUrlencode v
  let newq : String :=
    match u.query with
    | none => pair
    | some q => if q = "" then pair else q ++ "&" ++ pair
  { u with query := some newq }

/-! ### The restson client (src/lib.rs) -/

/-- Modelled from the spec: the crate version string (CARGO_PKG_VERSION,
read from Cargo.toml, which is not among the sources).  Only the shape of
the default user agent, restson/VERSION, matters to the claims; the
concrete version text never does. -/
def VERSION : String := "1.0.0"

/-- Model of struct RestClient.  The hyper transport handle (client field)
is collaborator state carrying no request-construction logic, so it is
omitted; the transport outcome is passed to run_request explicitly. -/
structure RestClient where
  baseurl : Url
  auth : Option String
  headers : HeaderMap
  timeout : Duration
  send_null_body : Bool
  body_wash_fn : String → String

/-- Model of struct Builder (the optional injected hyper client is
collaborator state and is omitted). -/
structure Builder where
  timeout : Duration
  send_null_body : Bool

/-- Builder::default: effectively-infinite timeout sentinel, null bodies
are sent. -/
def Builder.default : Builder :=
  { timeout := Duration.from_secs u64Max, send_null_body := true }

/-- Model of RestClient::with_builder: parses the base URL (UrlError when
it does not parse as an absolute URL) and stores the configuration.  The
construction touches no network: building the hyper client handle (elided
here) only assembles a connector. -/
def RestClient.with_builder (url : String) (b : Builder) :
    Except Error RestClient :=
  match Url.parse url with
  | none => .error .UrlError
  | some u =>
      .ok { baseurl := u, auth := none, headers := [],
            timeout := b.timeout, send_null_body := b.send_null_body,
            body_wash_fn := id }

/-- Model of RestClient::new (default builder). -/
def RestClient.new (url : String) : Except Error RestClient :=
  RestClient.with_builder url Builder.default

/-- Model of Builder::build. -/
def Builder.build (b : Builder) (url : String) : Except Error RestClient :=
  RestClient.with_builder url b

def RestClient.set_send_null_body (c : RestClient) (send_null : Bool) :
    RestClient :=
  { c with send_null_body := send_null }

def RestClient.set_body_wash_fn (c : RestClient) (f : String → String) :
    RestClient :=
  { c with body_wash_fn := f }

def RestClient.set_timeout (c : RestClient) (t : Duration) : RestClient :=
  { c with timeout := t }

/-- Model of RestClient::set_header: validates the value as a header value
(InvalidValue on failure, leaving the client untouched) and otherwise
inserts it into the default header map. -/
def RestClient.set_header (c : RestClient) (name value : String) :
    RestClient × Option Error :=
  match headerValueFromStr value with
  | none => (c, some .InvalidValue)
  | some v => ({ c with headers := c.headers.insert name v }, none)

/-- Model of RestClient::clear_headers. -/
def RestClient.clear_headers (c : RestClient) : RestClient :=
  { c with headers := [] }

/-- Model of RestClient::make_uri: joins the base URL with the resolved
path, appends the query pairs in order, and renders the result (the
re-parse of the rendered text as a hyper::Uri is modelled as identity). -/
def RestClient.make_uri (c : RestClient) (path : String)
    (params : Option (List (String × String))) : Except Error String :=
  match c.baseurl.join path with
  | none => .error .UrlError
  | some url =>
    let url :=
      match params with
      | some ps => ps.foldl (fun (u : Url) (p : String × String) => u.appendPair p.1 p.2) url
      | none => url
    .ok url.as_str

/-- A transport-ready request (hyper::Request).  A body of none models
hyper::Body::empty(). -/
structure Request where
  method : Method
  uri : String
  headers : HeaderMap
  body : Option String
deriving DecidableEq, Repr

/-- Model of RestClient::make_request.  The typed path resolution
T::get_path(params) is a per-caller trait implementation, so its result is
passed in as pathRes.  Steps, in source order: resolve the URI; when a
body is present and (send_null_body or the body differs from the literal
string null) attach it with content-length and content-type headers;
insert the Authorization header from the stored credential; insert every
custom header; finally set the default user agent unless one is present.
The content-type value application/json is inserted via
HeaderValue::from_str(...).unwrap(), which cannot fail on that literal. -/
def attachBody (send_null_body : Bool) (body : Option String) (req : Request) :
    Except Error Request :=
  match body with
  | none => .ok req
  | some b =>
    if send_null_body || b ≠ "null" then
      match headerValueFromStr (toString (strBytes b).length) with
      | none => .error .RequestError
      | some len =>
        .ok { req with
              headers := (req.headers.insert "content-length" len).insert
                           "content-type" "application/json",
              body := some b }
    else .ok req

def attachAuth (auth : Option String) (req : Request) : Except Error Request :=
  match auth with
  | none => .ok req
  | some a =>
    match headerValueFromStr a with
    | none => .error .RequestError
    | some av =>
      .ok { req with headers := req.headers.insert "authorization" av }

def applyCustomHeaders (custom : HeaderMap) (req : Request) : Request :=
  { req with
    headers := custom.foldl (fun h p => HeaderMap.insert h p.1 p.2) req.headers }

def finishHeaders (custom : HeaderMap) (req : Request) : Request :=
  if (applyCustomHeaders custom req).headers.hasKey "user-agent" then
    applyCustomHeaders custom req
  else
    { applyCustomHeaders custom req with
      headers := HeaderMap.insert (applyCustomHeaders custom req).headers
                   "user-agent" ("restson/" ++ VERSION) }

def RestClient.make_request (c : RestClient) (method : Method)
    (pathRes : Except Error String) (query : Option (List (String × String)))
    (body : Option String) : Except Error Request :=
  match pathRes with
  | .error e => .error e
  | .ok path =>
  match c.make_uri path query with
  | .error e => .error e
  | .ok uri =>
  match attachBody c.send_null_body body
          { method := method, uri := uri, headers := [], body := none } with
  | .error e => .error e
  | .ok req1 =>
  match attachAuth c.auth req1 with
  | .error e => .error e
  | .ok req2 => .ok (finishHeaders c.headers req2)

/-! ### Transport executor (RestClient::run_request) -/

/-- Outcome the work future in run_request resolves to: the transport
call, body aggregation, and lossy UTF-8 decoding either produce the
response headers, decoded body text and numeric status, or a hyper
error. -/
inductive WorkResult where
  | ok (headers : HeaderMap) (body : String) (status : Nat)
  | hyperErr (err : Nat)
deriving DecidableEq, Repr

/-- Type returned by client query functions (struct Response). -/
structure Response (T : Type) where
  body : T
  headers : HeaderMap
deriving DecidableEq, Repr

def Response.into_inner {T : Type} (r : Response T) : T := r.body

/-- Model of http::StatusCode::is_success: the 2xx range. -/
def statusIsSuccess (s : Nat) : Bool := 200 ≤ s ∧ s < 300

def workToExcept : WorkResult → Except Error (HeaderMap × String × Nat)
  | .ok hs b st => .ok (hs, b, st)
  | .hyperErr e => .error (.HyperError e)

/-- Model of RestClient::run_request.  The suspension points are explicit:
work is the outcome the transport future resolves to, and timerFirst says
whether the timeout timer finished first — the timer is raced against the
work future only when the configured timeout differs from the
effectively-infinite sentinel Duration::from_secs(u64::MAX).  A non-2xx
status short-circuits into HttpError with the raw body; on success the
body-wash function is applied to the body. -/
def RestClient.run_request (c : RestClient) (work : WorkResult)
    (timerFirst : Bool) : Except Error (Response String) :=
  let raced : Except Error (HeaderMap × String × Nat) :=
    if c.timeout ≠ Duration.from_secs u64Max then
      if timerFirst then .error .TimeoutError else workToExcept work
    else workToExcept work
  match raced with
  | .error e => .error e
  | .ok (response_headers, body, status) =>
    if ¬ statusIsSuccess status then .error (.HttpError status body)
    else .ok { body := c.body_wash_fn body, headers := response_headers }

/-- Model of Response<String>::parse under the default lib-serde-json
feature; fromStr stands for serde_json::from_str at the target type. -/
def Response.parse {T : Type} (fromStr : String → Except Nat T)
    (r : Response String) : Except Error (Response T) :=
  match fromStr r.body with
  | .ok body => .ok { body := body, headers := r.headers }
  | .error e => .error (.DeserializeParseError e r.body)

/-! ### Verb surface (asynchronous client)

Each method is the sequential composition build → execute → decode from
the source; the collaborator results (typed path resolution, JSON
serialisation of the data argument, JSON deserialisation at the target
type, transport outcome, timeout race outcome) are explicit arguments. -/

/-- Model of RestClient::get. -/
def RestClient.get {T : Type} (c : RestClient) (pathRes : Except Error String)
    (fromStr : String → Except Nat T) (work : WorkResult) (timerFirst : Bool) :
    Except Error (Response T) :=
  match c.make_request .GET pathRes none none with
  | .error e => .error e
  | .ok _req =>
    match c.run_request work timerFirst with
    | .error e => .error e
    | .ok res => res.parse fromStr

/-- Model of RestClient::get_with. -/
def RestClient.get_with {T : Type} (c : RestClient)
    (pathRes : Except Error String) (query : List (String × String))
    (fromStr : String → Except Nat T) (work : WorkResult) (timerFirst : Bool) :
    Except Error (Response T) :=
  match c.make_request .GET pathRes (some query) none with
  | .error e => .error e
  | .ok _req =>
    match c.run_request work timerFirst with
    | .error e => .error e
    | .ok res => res.parse fromStr

/-- Model of RestClient::post_or_put (shared by post, put and patch);
dataSer is the serde_json::to_string outcome on the data argument. -/
def RestClient.post_or_put (c : RestClient) (method : Method)
    (pathRes : Except Error String) (dataSer : Except Nat String)
    (work : WorkResult) (timerFirst : Bool) : Except Error (Response Unit) :=
  match dataSer with
  | .error e => .error (.SerializeParseError e)
  | .ok data =>
    match c.make_request method pathRes none (some data) with
    | .error e => .error e
    | .ok _req =>
      match c.run_request work timerFirst with
      | .error e => .error e
      | .ok res => .ok { body := (), headers := res.headers }

def RestClient.post (c : RestClient) (pathRes : Except Error String)
    (dataSer : Except Nat String) (work : WorkResult) (timerFirst : Bool) :
    Except Error (Response Unit) :=
  c.post_or_put .POST pathRes dataSer work timerFirst

def RestClient.put (c : RestClient) (pathRes : Except Error String)
    (dataSer : Except Nat String) (work : WorkResult) (timerFirst : Bool) :
    Except Error (Response Unit) :=
  c.post_or_put .PUT pathRes dataSer work timerFirst

def RestClient.patch (c : RestClient) (pathRes : Except Error String)
    (dataSer : Except Nat String) (work : WorkResult) (timerFirst : Bool) :
    Except Error (Response Unit) :=
  c.post_or_put .PATCH pathRes dataSer work timerFirst

/-- Model of RestClient::post_or_put_with. -/
def RestClient.post_or_put_with (c : RestClient) (method : Method)
    (pathRes : Except Error String) (dataSer : Except Nat String)
    (query : List (String × String)) (work : WorkResult) (timerFirst : Bool) :
    Except Error (Response Unit) :=
  match dataSer with
  | .error e => .error (.SerializeParseError e)
  | .ok data =>
    match c.make_request method pathRes (some query) (some data) with
    | .error e => .error e
    | .ok _req =>
      match c.run_request work timerFirst with
      | .error e => .error e
      | .ok res => .ok { body := (), headers := res.headers }

def RestClient.post_with (c : RestClient) (pathRes : Except Error String)
    (dataSer : Except Nat String) (query : List (String × String))
    (work : WorkResult) (timerFirst : Bool) : Except Error (Response Unit) :=
  c.post_or_put_with .POST pathRes dataSer query work timerFirst

def RestClient.put_with (c : RestClient) (pathRes : Except Error String)
    (dataSer : Except Nat String) (query : List (String × String))
    (work : WorkResult) (timerFirst : Bool) : Except Error (Response Unit) :=
  c.post_or_put_with .PUT pathRes dataSer query work timerFirst

def RestClient.patch_with (c : RestClient) (pathRes : Except Error String)
    (dataSer : Except Nat String) (query : List (String × String))
    (work : WorkResult) (timerFirst : Bool) : Except Error (Response Unit) :=
  c.post_or_put_with .PATCH pathRes dataSer query work timerFirst

/-- Model of RestClient::generic_capture (shared by the capture variants
of post, put, patch and delete). -/
def RestClient.generic_capture {K : Type} (c : RestClient) (method : Method)
    (pathRes : Except Error String) (dataSer : Except Nat String)
    (fromStr : String → Except Nat K) (work : WorkResult) (timerFirst : Bool) :
    Except Error (Response K) :=
  match dataSer with
  | .error e => .error (.SerializeParseError e)
  | .ok data =>
    match c.make_request method pathRes none (some data) with
    | .error e => .error e
    | .ok _req =>
      match c.run_request work timerFirst with
      | .error e => .error e
      | .ok res => res.parse fromStr

def RestClient.post_capture {K : Type} (c : RestClient)
    (pathRes : Except Error String) (dataSer : Except Nat String)
    (fromStr : String → Except Nat K) (work : WorkResult) (timerFirst : Bool) :
    Except Error (Response K) :=
  c.generic_capture .POST pathRes dataSer fromStr work timerFirst

def RestClient.put_capture {K : Type} (c : RestClient)
    (pathRes : Except Error String) (dataSer : Except Nat String)
    (fromStr : String → Except Nat K) (work : WorkResult) (timerFirst : Bool) :
    Except Error (Response K) :=
  c.generic_capture .PUT pathRes dataSer fromStr work timerFirst

def RestClient.patch_capture {K : Type} (c : RestClient)
    (pathRes : Except Error String) (dataSer : Except Nat String)
    (fromStr : String → Except Nat K) (work : WorkResult) (timerFirst : Bool) :
    Except Error (Response K) :=
  c.generic_capture .PATCH pathRes dataSer fromStr work timerFirst

def RestClient.delete_capture {K : Type} (c : RestClient)
    (pathRes : Except Error String) (dataSer : Except Nat String)
    (fromStr : String → Except Nat K) (work : WorkResult) (timerFirst : Bool) :
    Except Error (Response K) :=
  c.generic_capture .DELETE pathRes dataSer fromStr work timerFirst

/-- Model of RestClient::generic_capture_with. -/
def RestClient.generic_capture_with {K : Type} (c : RestClient)
    (method : Method) (pathRes : Except Error String)
    (dataSer : Except Nat String) (query : List (String × String))
    (fromStr : String → Except Nat K) (work : WorkResult) (timerFirst : Bool) :
    Except Error (Response K) :=
  match dataSer with
  | .error e => .error (.SerializeParseError e)
  | .ok data =>
    match c.make_request method pathRes (some query) (some data) with
    | .error e => .error e
    | .ok _req =>
      match c.run_request work timerFirst with
      | .error e => .error e
      | .ok res => res.parse fromStr

def RestClient.post_capture_with {K : Type} (c : RestClient)
    (pathRes : Except Error String) (dataSer : Except Nat String)
    (query : List (String × String)) (fromStr : String → Except Nat K)
    (work : WorkResult) (timerFirst : Bool) : Except Error (Response K) :=
  c.generic_capture_with .POST pathRes dataSer query fromStr work timerFirst

def RestClient.put_capture_with {K : Type} (c : RestClient)
    (pathRes : Except Error String) (dataSer : Except Nat String)
    (query : List (String × String)) (fromStr : String → Except Nat K)
    (work : WorkResult) (timerFirst : Bool) : Except Error (Response K) :=
  c.generic_capture_with .PUT pathRes dataSer query fromStr work timerFirst

def RestClient.patch_capture_with {K : Type} (c : RestClient)
    (pathRes : Except Error String) (dataSer : Except Nat String)
    (query : List (String × String)) (fromStr : String → Except Nat K)
    (work : WorkResult) (timerFirst : Bool) : Except Error (Response K) :=
  c.generic_capture_with .PATCH pathRes dataSer query fromStr work timerFirst

def RestClient.delete_capture_with {K : Type} (c : RestClient)
    (pathRes : Except Error String) (dataSer : Except Nat String)
    (query : List (String × String)) (fromStr : String → Except Nat K)
    (work : WorkResult) (timerFirst : Bool) : Except Error (Response K) :=
  c.generic_capture_with .DELETE pathRes dataSer query fromStr work timerFirst

/-- Model of RestClient::delete. -/
def RestClient.delete (c : RestClient) (pathRes : Except Error String)
    (work : WorkResult) (timerFirst : Bool) : Except Error (Response Unit) :=
  match c.make_request .DELETE pathRes none none with
  | .error e => .error e
  | .ok _req =>
    match c.run_request work timerFirst with
    | .error e => .error e
    | .ok res => .ok { body := (), headers := res.headers }

/-- Model of RestClient::delete_with (query and body). -/
def RestClient.delete_with (c : RestClient) (pathRes : Except Error String)
    (dataSer : Except Nat String) (query : List (String × String))
    (work : WorkResult) (timerFirst : Bool) : Except Error (Response Unit) :=
  match dataSer with
  | .error e => .error (.SerializeParseError e)
  | .ok data =>
    match c.make_request .DELETE pathRes (some query) (some data) with
    | .error e => .error e
    | .ok _req =>
      match c.run_request work timerFirst with
      | .error e => .error e
      | .ok res => .ok { body := (), headers := res.headers }

/-! ### Blocking facade (src/blocking.rs) -/

namespace Blocking

/-- Model of blocking::RestClient: the wrapped asynchronous client plus an
owned current-thread tokio runtime.  The runtime has no observable state
beyond its existence, so only the inner client is carried. -/
structure RestClient where
  inner_client : Restson.RestClient

/-- Model of tokio Runtime::block_on on the facade's owned current-thread
runtime: it drives the single given future to completion and returns its
output unchanged. -/
def blockOn {α : Type} (x : α) : α := x

/-- Model of TryFrom<RestClient> for blocking::RestClient: building the
current-thread runtime is a collaborator call whose outcome is the
runtimeBuild argument; failure surfaces as IoError. -/
def tryFrom (other : Restson.RestClient) (runtimeBuild : Except Nat Unit) :
    Except Error RestClient :=
  match runtimeBuild with
  | .ok _ => .ok { inner_client := other }
  | .error e => .error (.IoError e)

def RestClient.get {T : Type} (c : RestClient) (pathRes : Except Error String)
    (fromStr : String → Except Nat T) (work : WorkResult) (timerFirst : Bool) :
    Except Error (Response T) :=
  blockOn (c.inner_client.get pathRes fromStr work timerFirst)

def RestClient.get_with {T : Type} (c : RestClient)
    (pathRes : Except Error String) (query : List (String × String))
    (fromStr : String → Except Nat T) (work : WorkResult) (timerFirst : Bool) :
    Except Error (Response T) :=
  blockOn (c.inner_client.get_with pathRes query fromStr work timerFirst)

def RestClient.post (c : RestClient) (pathRes : Except Error String)
    (dataSer : Except Nat String) (work : WorkResult) (timerFirst : Bool) :
    Except Error (Response Unit) :=
  blockOn (c.inner_client.post pathRes dataSer work timerFirst)

def RestClient.put (c : RestClient) (pathRes : Except Error String)
    (dataSer : Except Nat String) (work : WorkResult) (timerFirst : Bool) :
    Except Error (Response Unit) :=
  blockOn (c.inner_client.put pathRes dataSer work timerFirst)

def RestClient.patch (c : RestClient) (pathRes : Except Error String)
    (dataSer : Except Nat String) (work : WorkResult) (timerFirst : Bool) :
    Except Error (Response Unit) :=
  blockOn (c.inner_client.patch pathRes dataSer work timerFirst)

def RestClient.post_with (c : RestClient) (pathRes : Except Error String)
    (dataSer : Except Nat String) (query : List (String × String))
    (work : WorkResult) (timerFirst : Bool) : Except Error (Response Unit) :=
  blockOn (c.inner_client.post_with pathRes dataSer query work timerFirst)

def RestClient.put_with (c : RestClient) (pathRes : Except Error String)
    (dataSer : Except Nat String) (query : List (String × String))
    (work : WorkResult) (timerFirst : Bool) : Except Error (Response Unit) :=
  blockOn (c.inner_client.put_with pathRes dataSer query work timerFirst)

def RestClient.patch_with (c : RestClient) (pathRes : Except Error String)
    (dataSer : Except Nat String) (query : List (String × String))
    (work : WorkResult) (timerFirst : Bool) : Except Error (Response Unit) :=
  blockOn (c.inner_client.patch_with pathRes dataSer query work timerFirst)

def RestClient.post_capture {K : Type} (c : RestClient)
    (pathRes : Except Error String) (dataSer : Except Nat String)
    (fromStr : String → Except Nat K) (work : WorkResult) (timerFirst : Bool) :
    Except Error (Response K) :=
  blockOn (c.inner_client.post_capture pathRes dataSer fromStr work timerFirst)

def RestClient.put_capture {K : Type} (c : RestClient)
    (pathRes : Except Error String) (dataSer : Except Nat String)
    (fromStr : String → Except Nat K) (work : WorkResult) (timerFirst : Bool) :
    Except Error (Response K) :=
  blockOn (c.inner_client.put_capture pathRes dataSer fromStr work timerFirst)

def RestClient.patch_capture {K : Type} (c : RestClient)
    (pathRes : Except Error String) (dataSer : Except Nat String)
    (fromStr : String → Except Nat K) (work : WorkResult) (timerFirst : Bool) :
    Except Error (Response K) :=
  blockOn (c.inner_client.patch_capture pathRes dataSer fromStr work timerFirst)

def RestClient.post_capture_with {K : Type} (c : RestClient)
    (pathRes : Except Error String) (dataSer : Except Nat String)
    (query : List (String × String)) (fromStr : String → Except Nat K)
    (work : WorkResult) (timerFirst : Bool) : Except Error (Response K) :=
  blockOn
    (c.inner_client.post_capture_with pathRes dataSer query fromStr work
      timerFirst)

def RestClient.put_capture_with {K : Type} (c : RestClient)
    (pathRes : Except Error String) (dataSer : Except Nat String)
    (query : List (String × String)) (fromStr : String → Except Nat K)
    (work : WorkResult) (timerFirst : Bool) : Except Error (Response K) :=
  blockOn
    (c.inner_client.put_capture_with pathRes dataSer query fromStr work
      timerFirst)

def RestClient.patch_capture_with {K : Type} (c : RestClient)
    (pathRes : Except Error String) (dataSer : Except Nat String)
    (query : List (String × String)) (fromStr : String → Except Nat K)
    (work : WorkResult) (timerFirst : Bool) : Except Error (Response K) :=
  blockOn
    (c.inner_client.patch_capture_with pathRes dataSer query fromStr work
      timerFirst)

def RestClient.delete (c : RestClient) (pathRes : Except Error String)
    (work : WorkResult) (timerFirst : Bool) : Except Error (Response Unit) :=
  blockOn (c.inner_client.delete pathRes work timerFirst)

def RestClient.delete_with (c : RestClient) (pathRes : Except Error String)
    (dataSer : Except Nat String) (query : List (String × String))
    (work : WorkResult) (timerFirst : Bool) : Except Error (Response Unit) :=
  blockOn (c.inner_client.delete_with pathRes dataSer query work timerFirst)

def RestClient.delete_capture {K : Type} (c : RestClient)
    (pathRes : Except Error String) (dataSer : Except Nat String)
    (fromStr : String → Except Nat K) (work : WorkResult) (timerFirst : Bool) :
    Except Error (Response K) :=
  blockOn
    (c.inner_client.delete_capture pathRes dataSer fromStr work timerFirst)

def RestClient.delete_capture_with {K : Type} (c : RestClient)
    (pathRes : Except Error String) (dataSer : Except Nat String)
    (query : List (String × String)) (fromStr : String → Except Nat K)
    (work : WorkResult) (timerFirst : Bool) : Except Error (Response K) :=
  blockOn
    (c.inner_client.delete_capture_with pathRes dataSer query fromStr work
      timerFirst)

end Blocking

/-! ### Concrete instances used to exhibit behaviour -/

/-- Rendering of a query-pair list as it appears in the final URL: the
pairs in order, each form-urlencoded as name=value, joined by ampersands,
repeats preserved. -/
def renderPairs : List (String × String) → String
  | [] => ""
  | [p] => formUrlencode p.1 ++ "=" ++ formUrlencode p.2
  | p :: ps =>
    formUrlencode p.1 ++ "=" ++ formUrlencode p.2 ++ "&" ++ renderPairs ps

/-- The parsed form of the base URL http://x.test/ used by the concrete
instances below. -/
def testBase : Url :=
  { scheme := "http", host := "x.test", path := "/", query := none,
    fragment := none }

/-- A default-configuration client for the base URL http://x.test/ (the
value RestClient.new returns for it). -/
def testClient : RestClient :=
  { baseurl := testBase, auth := none, headers := [],
    timeout := Duration.from_secs u64Max, send_null_body := true,
    body_wash_fn := id }

/-- Client with the null-body policy disabled and a custom content-type
header configured. -/
def nullBodyXmlClient : RestClient :=
  { testClient with send_null_body := false,
                    headers := [("content-type", "text/xml")] }

/-- Client with a custom content-length header configured. -/
def customLengthClient : RestClient :=
  { testClient with headers := [("content-length", "999")] }

/-- Client with a five-second timeout configured. -/
def timeoutClient : RestClient :=
  { testClient with timeout := Duration.from_secs 5 }

/-- The request testClient builds for a POST to path anything carrying the
serialized body abc. -/
def abcRequest : Request :=
  { method := .POST, uri := "http://x.test/anything",
    headers := [("content-length", "3"),
                ("content-type", "application/json"),
                ("user-agent", "restson/" ++ VERSION)],
    body := some "abc" }

/-- The request testClient builds for a POST to path anything carrying a
body that is one two-byte UTF-8 character. -/
def eAcuteRequest : Request :=
  { method := .POST, uri := "http://x.test/anything",
    headers := [("content-length", "2"),
                ("content-type", "application/json"),
                ("user-agent", "restson/" ++ VERSION)],
    body := some "é" }

/-- The URL testClient's base resolves the path anything to. -/
def anythingUrl : Url :=
  { scheme := "http", host := "x.test", path := "/anything", query := none,
    fragment := none }

/-! ## Theorems

Auxiliary lemmas about the header-map model and the request-construction
stages, followed by one theorem per specification claim. -/

namespace HeaderMap

theorem lookupKey_ins_hit (m : HeaderMap) (k v : String) :
    lookupKey (removeKey m k ++ [(k, v)]) k = some v := by
  induction m with
  | nil => simp [lookupKey, removeKey]
  | cons hd tl ih =>
    by_cases h : hd.1 = k
    · simpa [removeKey, h] using ih
    · simpa [removeKey, lookupKey, h] using ih

theorem lookupKey_ins_miss (m : HeaderMap) (k v q : String) (hq : q ≠ k) :
    lookupKey (removeKey m k ++ [(k, v)]) q = lookupKey m q := by
  induction m with
  | nil => simp [lookupKey, removeKey, Ne.symm hq]
  | cons hd tl ih =>
    by_cases h : hd.1 = k
    · have h2 : ¬ hd.1 = q := by
        rw [h]; exact Ne.symm hq
      simpa [removeKey, lookupKey, h, h2, Ne.symm hq] using ih
    · by_cases h2 : hd.1 = q
      · simp [removeKey, lookupKey, h, h2, hq]
      · simpa [removeKey, lookupKey, h, h2] using ih

theorem get_insert (m : HeaderMap) (n v q : String) :
    get (insert m n v) q =
      if lowerStr q = lowerStr n then some v else get m q := by
  by_cases h : lowerStr q = lowerStr n
  · simp [insert, get, h, lookupKey_ins_hit]
  · simp [insert, get, h, lookupKey_ins_miss m (lowerStr n) v (lowerStr q) h]

theorem get_eq_none_of_hasKey_eq_false (m : HeaderMap) (q : String)
    (h : hasKey m q = false) : get m q = none := by
  unfold hasKey at h
  unfold get
  cases hk : lookupKey m (lowerStr q) with
  | none => rfl
  | some v => rw [hk] at h; simp at h

theorem hasKey_eq_isSome_get (m : HeaderMap) (q : String) :
    hasKey m q = (get m q).isSome := rfl

theorem lookupKey_eq_none_iff (m : HeaderMap) (k : String) :
    lookupKey m k = none ↔ ∀ p ∈ m, p.1 ≠ k := by
  induction m with
  | nil => simp [lookupKey]
  | cons hd tl ih =>
    by_cases h : hd.1 = k <;> simp [lookupKey, h, ih]

theorem foldl_insert_get_of_absent (l : HeaderMap) (q : String) :
    ∀ h0 : HeaderMap, (∀ p ∈ l, lowerStr p.1 ≠ lowerStr q) →
      get (l.foldl (fun m p => insert m p.1 p.2) h0) q = get h0 q := by
  induction l with
  | nil => intro h0 _; rfl
  | cons hd tl ih =>
    intro h0 h
    rw [List.foldl_cons, ih _ (fun p hp => h p (List.mem_cons_of_mem hd hp)),
        get_insert]
    exact if_neg fun hh => (h hd (List.mem_cons_self hd tl)) hh.symm

theorem foldl_insert_get_of_mem (l : HeaderMap) (q v : String) :
    ∀ h0 : HeaderMap, WF l → get l q = some v →
      get (l.foldl (fun m p => insert m p.1 p.2) h0) q = some v := by
  induction l with
  | nil => intro h0 _ hget; simp [get, lookupKey] at hget
  | cons hd tl ih =>
    intro h0 hwf hget
    obtain ⟨hnd, hlow⟩ := hwf
    rw [List.map_cons, List.nodup_cons] at hnd
    by_cases hk : hd.1 = lowerStr q
    · have hv : v = hd.2 := by
        simp [get, lookupKey, hk] at hget
        exact hget.symm
      have htl : ∀ p ∈ tl, lowerStr p.1 ≠ lowerStr q := by
        intro p hp hcon
        have hl : lowerStr p.1 = p.1 := hlow p (List.mem_cons_of_mem hd hp)
        have hph : p.1 = hd.1 := by rw [← hl, hcon, ← hk]
        exact hnd.1 (hph ▸ List.mem_map_of_mem Prod.fst hp)
      rw [List.foldl_cons, foldl_insert_get_of_absent tl q _ htl, get_insert,
          if_pos (by rw [hlow hd (List.mem_cons_self hd tl), hk]), hv]
    · have hget2 : get tl q = some v := by
        simpa [get, lookupKey, hk] using hget
      rw [List.foldl_cons]
      exact ih _ ⟨hnd.2, fun p hp => hlow p (List.mem_cons_of_mem hd hp)⟩ hget2

end HeaderMap

theorem ua_lower : lowerStr "user-agent" = "user-agent" := by decide

theorem auth_lower : lowerStr "authorization" = "authorization" := by decide

theorem ct_lower : lowerStr "content-type" = "content-type" := by decide

theorem cl_lower : lowerStr "content-length" = "content-length" := by decide

theorem headerValueFromStr_some {s v : String}
    (h : headerValueFromStr s = some v) : v = s := by
  unfold headerValueFromStr at h
  split at h
  · exact (Option.some.inj h).symm
  · exact absurd h (by simp)

theorem attachBody_ok_cases (send : Bool) (b : String) (req r : Request)
    (h : attachBody send (some b) req = .ok r) :
    ((send = true ∨ b ≠ "null") ∧
       r = { req with
             headers := HeaderMap.insert
                          (HeaderMap.insert req.headers "content-length"
                            (toString (strBytes b).length))
                          "content-type" "application/json",
             body := some b })
    ∨ (send = false ∧ b = "null" ∧ r = req) := by
  simp only [attachBody] at h
  split at h
  · rename_i hc
    split at h
    · exact absurd h (by simp)
    · rename_i len hlen
      left
      have hlv := headerValueFromStr_some hlen
      subst hlv
      refine ⟨?_, (Except.ok.inj h).symm⟩
      simpa [Bool.or_eq_true, decide_eq_true_iff] using hc
  · rename_i hc
    right
    have hc2 : send = false ∧ b = "null" := by
      simpa [Bool.or_eq_true, decide_eq_true_iff, not_or] using hc
    exact ⟨hc2.1, hc2.2, (Except.ok.inj h).symm⟩

theorem attachAuth_ok_elim (auth : Option String) (req r : Request)
    (h : attachAuth auth req = .ok r) :
    r.body = req.body ∧ r.method = req.method ∧ r.uri = req.uri ∧
    ∀ q : String, lowerStr q ≠ "authorization" →
      HeaderMap.get r.headers q = HeaderMap.get req.headers q := by
  unfold attachAuth at h
  split at h
  · rw [Except.ok.inj h]
    exact ⟨rfl, rfl, rfl, fun q _ => rfl⟩
  · split at h
    · exact absurd h (by simp)
    · rw [← Except.ok.inj h]
      refine ⟨rfl, rfl, rfl, fun q hq => ?_⟩
      rw [HeaderMap.get_insert, if_neg (by rw [auth_lower]; exact hq)]

theorem finishHeaders_body (custom : HeaderMap) (req : Request) :
    (finishHeaders custom req).body = req.body := by
  unfold finishHeaders
  split <;> rfl

theorem finishHeaders_custom_wins (custom : HeaderMap) (req : Request)
    (q v : String) (hwf : HeaderMap.WF custom)
    (hget : HeaderMap.get custom q = some v) :
    HeaderMap.get (finishHeaders custom req).headers q = some v := by
  unfold finishHeaders applyCustomHeaders
  have hfold :=
    HeaderMap.foldl_insert_get_of_mem custom q v req.headers hwf hget
  split
  · exact hfold
  · rename_i hua
    rw [HeaderMap.get_insert]
    by_cases hq : lowerStr q = lowerStr "user-agent"
    · exfalso
      have hnone := HeaderMap.get_eq_none_of_hasKey_eq_false
        (custom.foldl (fun m p => HeaderMap.insert m p.1 p.2) req.headers)
        "user-agent" (by simpa using hua)
      rw [ua_lower] at hq
      unfold HeaderMap.get at hfold hnone
      rw [hq] at hfold
      rw [ua_lower] at hnone
      rw [hfold] at hnone
      exact Option.noConfusion hnone
    · rw [if_neg hq]
      exact hfold

theorem finishHeaders_default_ua (custom : HeaderMap) (req : Request)
    (hcust : ∀ p ∈ custom, lowerStr p.1 ≠ "user-agent")
    (hreq : HeaderMap.get req.headers "user-agent" = none) :
    HeaderMap.get (finishHeaders custom req).headers "user-agent"
      = some ("restson/" ++ VERSION) := by
  unfold finishHeaders applyCustomHeaders
  have hfold := HeaderMap.foldl_insert_get_of_absent custom "user-agent"
      req.headers (by intro p hp; rw [ua_lower]; exact hcust p hp)
  split
  · rename_i hua
    exfalso
    rw [HeaderMap.hasKey_eq_isSome_get, hfold, hreq] at hua
    exact Bool.noConfusion hua
  · rw [HeaderMap.get_insert, if_pos rfl]

theorem finishHeaders_absent (custom : HeaderMap) (req : Request)
    (q : String) (hcust : ∀ p ∈ custom, lowerStr p.1 ≠ lowerStr q)
    (hq : lowerStr q ≠ "user-agent") :
    HeaderMap.get (finishHeaders custom req).headers q
      = HeaderMap.get req.headers q := by
  unfold finishHeaders applyCustomHeaders
  have hfold := HeaderMap.foldl_insert_get_of_absent custom q req.headers hcust
  split
  · exact hfold
  · rw [HeaderMap.get_insert, if_neg (by rw [ua_lower]; exact hq)]
    exact hfold

theorem make_request_ok_elim (c : RestClient) (m : Method)
    (pathRes : Except Error String) (query : Option (List (String × String)))
    (body : Option String) (req : Request)
    (h : c.make_request m pathRes query body = .ok req) :
    ∃ uri req1 req2,
      attachBody c.send_null_body body
          { method := m, uri := uri, headers := [], body := none } = .ok req1 ∧
      attachAuth c.auth req1 = .ok req2 ∧
      req = finishHeaders c.headers req2 := by
  unfold RestClient.make_request at h
  split at h
  · exact absurd h (by simp)
  · split at h
    · exact absurd h (by simp)
    · rename_i path uri huri
      split at h
      · exact absurd h (by simp)
      · rename_i req1 h1
        split at h
        · exact absurd h (by simp)
        · rename_i req2 h2
          exact ⟨uri, req1, req2, h1, h2, (Except.ok.inj h).symm⟩

/-! ### Claim C1 -/

/-- C1 (amended): for every successfully built request carrying a
serialized body string, the body is attached iff the null-body policy is
enabled or the body differs from the literal string null; provided the
client's custom headers name neither content-type nor content-length, an
attached body comes with content-length and content-type
application/json headers, and a suppressed body leaves the request with
no body and neither of those headers. -/
theorem c1_null_body_suppression (c : RestClient) (m : Method)
    (pathRes : Except Error String) (query : Option (List (String × String)))
    (b : String) (req : Request)
    (hct : ∀ p ∈ c.headers, lowerStr p.1 ≠ "content-type")
    (hcl : ∀ p ∈ c.headers, lowerStr p.1 ≠ "content-length")
    (h : c.make_request m pathRes query (some b) = .ok req) :
    (req.body = some b ↔ (c.send_null_body = true ∨ b ≠ "null")) ∧
    (req.body = some b →
       HeaderMap.get req.headers "content-length"
         = some (toString (strBytes b).length) ∧
       HeaderMap.get req.headers "content-type" = some "application/json") ∧
    (req.body = none →
       HeaderMap.get req.headers "content-length" = none ∧
       HeaderMap.get req.headers "content-type" = none) ∧
    (req.body = none ∨ req.body = some b) := by
  obtain ⟨uri, req1, req2, h1, h2, hfin⟩ :=
    make_request_ok_elim c m pathRes query (some b) req h
  obtain ⟨hb2, _, _, hh2⟩ := attachAuth_ok_elim c.auth req1 req2 h2
  have hbody : req.body = req1.body := by
    rw [hfin, finishHeaders_body, hb2]
  have hclq : ∀ p ∈ c.headers, lowerStr p.1 ≠ lowerStr "content-length" := by
    intro p hp; rw [cl_lower]; exact hcl p hp
  have hctq : ∀ p ∈ c.headers, lowerStr p.1 ≠ lowerStr "content-type" := by
    intro p hp; rw [ct_lower]; exact hct p hp
  have hgetcl : HeaderMap.get req.headers "content-length"
      = HeaderMap.get req1.headers "content-length" := by
    rw [hfin, finishHeaders_absent c.headers req2 _ hclq
          (by rw [cl_lower]; decide),
        hh2 _ (by rw [cl_lower]; decide)]
  have hgetct : HeaderMap.get req.headers "content-type"
      = HeaderMap.get req1.headers "content-type" := by
    rw [hfin, finishHeaders_absent c.headers req2 _ hctq
          (by rw [ct_lower]; decide),
        hh2 _ (by rw [ct_lower]; decide)]
  rcases attachBody_ok_cases c.send_null_body b _ req1 h1 with
    ⟨hcond, hreq1⟩ | ⟨hs, hn, hreq1⟩
  · have hb1 : req.body = some b := by rw [hbody, hreq1]
    refine ⟨⟨fun _ => hcond, fun _ => hb1⟩, fun _ => ⟨?_, ?_⟩,
            fun hnone => absurd (hb1 ▸ hnone) (by simp), Or.inr hb1⟩
    · rw [hgetcl, hreq1]
      simp only []
      rw [HeaderMap.get_insert, if_neg (by rw [cl_lower, ct_lower]; decide),
          HeaderMap.get_insert, if_pos rfl]
    · rw [hgetct, hreq1]
      simp only []
      rw [HeaderMap.get_insert, if_pos rfl]
  · have hb1 : req.body = none := by rw [hbody, hreq1]
    have hcfalse : ¬ (c.send_null_body = true ∨ b ≠ "null") := by
      rw [hs, hn]; simp
    refine ⟨⟨fun hsome => absurd (hb1 ▸ hsome) (by simp),
             fun hcond => absurd hcond hcfalse⟩,
            fun hsome => absurd (hb1 ▸ hsome) (by simp),
            fun _ => ⟨?_, ?_⟩, Or.inl hb1⟩
    · rw [hgetcl, hreq1]; rfl
    · rw [hgetct, hreq1]; rfl

/-- C1 counterexample: with the null-body policy disabled, a custom
content-type header configured, and a body that is the literal string
null, the built request carries no body and yet still carries a
content-type header, contrary to the claim that a suppressed body leaves
the request without either content header. -/
theorem c1_counterexample :
    nullBodyXmlClient.make_request .POST (.ok "anything") none (some "null")
      = .ok { method := .POST, uri := "http://x.test/anything",
              headers := [("content-type", "text/xml"),
                          ("user-agent", "restson/" ++ VERSION)],
              body := none } ∧
    HeaderMap.get [("content-type", "text/xml"),
                   ("user-agent", "restson/" ++ VERSION)] "content-type"
      = some "text/xml" := by
  constructor <;> decide

/-- Witness for C1 at a concrete client and request. -/
theorem c1_null_body_suppression_witness :
    (abcRequest.body = some "abc" ↔
       (testClient.send_null_body = true ∨ "abc" ≠ "null")) ∧
    (abcRequest.body = some "abc" →
       HeaderMap.get abcRequest.headers "content-length"
         = some (toString (strBytes "abc").length) ∧
       HeaderMap.get abcRequest.headers "content-type"
         = some "application/json") ∧
    (abcRequest.body = none →
       HeaderMap.get abcRequest.headers "content-length" = none ∧
       HeaderMap.get abcRequest.headers "content-type" = none) ∧
    (abcRequest.body = none ∨ abcRequest.body = some "abc") :=
  c1_null_body_suppression testClient .POST (.ok "anything") none "abc"
    abcRequest (by simp [testClient]) (by simp [testClient]) (by decide)

/-! ### Claim C2 -/

/-- C2: a transport completion (one that wins the timeout race) with a
status outside the 2xx range always yields HttpError carrying the exact
numeric status and the exact raw body text; a Response value is built by
run_request only from a transport completion with a 2xx status; and the
full get pipeline propagates the HttpError unchanged, so no Response is
ever produced for such a call. -/
theorem c2_http_error (c : RestClient) (hs : HeaderMap) (body : String)
    (st : Nat) (tf : Bool)
    (hrace : c.timeout = Duration.from_secs u64Max ∨ tf = false)
    (hst : statusIsSuccess st = false) :
    c.run_request (.ok hs body st) tf = .error (.HttpError st body) ∧
    (∀ (w : WorkResult) (tf2 : Bool) (r : Response String),
       c.run_request w tf2 = .ok r →
       ∃ hs2 b2 st2, w = .ok hs2 b2 st2 ∧ statusIsSuccess st2 = true) ∧
    (∀ (T : Type) (pathRes : Except Error String)
       (fromStr : String → Except Nat T) (req : Request),
       c.make_request .GET pathRes none none = .ok req →
       c.get pathRes fromStr (.ok hs body st) tf
         = .error (.HttpError st body)) := by
  have h1 : c.run_request (.ok hs body st) tf
      = .error (.HttpError st body) := by
    rcases hrace with h | h
    · simp [RestClient.run_request, h, workToExcept, hst]
    · subst h
      simp [RestClient.run_request, workToExcept, hst]
  refine ⟨h1, fun w tf2 r h => ?_, fun T pathRes fromStr req hmk => ?_⟩
  · cases w with
    | hyperErr e =>
      exfalso
      by_cases ht : c.timeout = Duration.from_secs u64Max <;> cases tf2 <;>
        simp [RestClient.run_request, ht, workToExcept] at h
    | ok hs2 b2 st2 =>
      refine ⟨hs2, b2, st2, rfl, ?_⟩
      by_cases hsucc : statusIsSuccess st2 = true
      · exact hsucc
      · exfalso
        by_cases ht : c.timeout = Duration.from_secs u64Max <;> cases tf2 <;>
          simp [RestClient.run_request, ht, workToExcept, hsucc] at h
  · simp [RestClient.get, hmk, h1]

/-- Witness for C2 at a concrete client, status 404 and body text. -/
theorem c2_http_error_witness :
    testClient.run_request (.ok [] "oops" 404) false
      = .error (.HttpError 404 "oops") :=
  (c2_http_error testClient [] "oops" 404 false (Or.inr rfl) (by decide)).1

/-! ### Claim C3 -/

/-- C3: when the configured timeout differs from the effectively-infinite
sentinel Duration::from_secs(u64::MAX), the transport work is raced
against a timer and the call returns TimeoutError exactly when the timer
completes first; when the timeout equals the sentinel no timer is
applied, so the outcome is that of the transport work regardless of any
timer; the sentinel is the builder default. -/
theorem c3_timeout_race (c : RestClient) (w : WorkResult) (tf : Bool) :
    (c.timeout ≠ Duration.from_secs u64Max →
       (c.run_request w tf = .error .TimeoutError ↔ tf = true)) ∧
    (c.timeout = Duration.from_secs u64Max →
       c.run_request w tf = c.run_request w false) ∧
    Builder.default.timeout = Duration.from_secs u64Max := by
  refine ⟨fun ht => ⟨fun h => ?_, fun h => ?_⟩, fun ht => ?_, rfl⟩
  · by_contra htf
    have htf2 : tf = false := by
      cases tf
      · rfl
      · exact absurd rfl htf
    subst htf2
    cases w with
    | ok hs b st =>
      by_cases hsucc : statusIsSuccess st = true <;>
        simp [RestClient.run_request, ht, workToExcept, hsucc] at h
    | hyperErr e =>
      simp [RestClient.run_request, ht, workToExcept] at h
  · subst h
    simp [RestClient.run_request, ht]
  · cases tf <;> simp [RestClient.run_request, ht]

/-- Witness for C3: a five-second timeout with the timer finishing first
yields TimeoutError, and the sentinel timeout ignores the timer. -/
theorem c3_timeout_race_witness :
    timeoutClient.run_request (.ok [] "b" 200) true = .error .TimeoutError ∧
    testClient.run_request (.ok [] "b" 200) true
      = testClient.run_request (.ok [] "b" 200) false :=
  ⟨((c3_timeout_race timeoutClient (.ok [] "b" 200) true).1
      (by decide)).mpr rfl,
   (c3_timeout_race testClient (.ok [] "b" 200) true).2.1 rfl⟩

/-! ### Claim C4 -/

/-- C4: on a capture call whose transport completes with a 2xx status, the
body-wash function is applied to the decoded body text before
deserialization; when deserialization fails the call returns
DeserializeParseError carrying the parse diagnostic together with exactly
the washed body text, and when it succeeds the decoded value is returned
with the response headers. -/
theorem c4_deserialize_error (K : Type) (c : RestClient) (m : Method)
    (pathRes : Except Error String) (d : String)
    (fromStr : String → Except Nat K) (hs : HeaderMap) (raw : String)
    (st : Nat) (tf : Bool) (req : Request) (e : Nat)
    (hmk : c.make_request m pathRes none (some d) = .ok req)
    (hrace : c.timeout = Duration.from_secs u64Max ∨ tf = false)
    (hst : statusIsSuccess st = true) :
    c.generic_capture m pathRes (.ok d) fromStr (.ok hs raw st) tf
      = Response.parse fromStr { body := c.body_wash_fn raw, headers := hs } ∧
    (fromStr (c.body_wash_fn raw) = .error e →
       c.generic_capture m pathRes (.ok d) fromStr (.ok hs raw st) tf
         = .error (.DeserializeParseError e (c.body_wash_fn raw))) ∧
    (∀ v, fromStr (c.body_wash_fn raw) = .ok v →
       c.generic_capture m pathRes (.ok d) fromStr (.ok hs raw st) tf
         = .ok { body := v, headers := hs }) := by
  have hrun : c.run_request (.ok hs raw st) tf
      = .ok { body := c.body_wash_fn raw, headers := hs } := by
    rcases hrace with h | h
    · simp [RestClient.run_request, h, workToExcept, hst]
    · subst h
      simp [RestClient.run_request, workToExcept, hst]
  have hmain : c.generic_capture m pathRes (.ok d) fromStr (.ok hs raw st) tf
      = Response.parse fromStr { body := c.body_wash_fn raw, headers := hs } := by
    simp [RestClient.generic_capture, hmk, hrun]
  refine ⟨hmain, fun herr => ?_, fun v hok => ?_⟩
  · rw [hmain]
    simp [Response.parse, herr]
  · rw [hmain]
    simp [Response.parse, hok]

/-- Witness for C4: a 200 response whose body fails to parse yields
DeserializeParseError carrying the (identity-washed) body text. -/
theorem c4_deserialize_error_witness :
    testClient.generic_capture .POST (.ok "anything") (.ok "1")
        (fun _ => (.error 7 : Except Nat Nat)) (.ok [] "not json" 200) false
      = .error (.DeserializeParseError 7 "not json") :=
  (c4_deserialize_error Nat testClient .POST (.ok "anything") "1"
      (fun _ => .error 7) [] "not json" 200 false
      { method := .POST, uri := "http://x.test/anything",
        headers := [("content-length", "1"),
                    ("content-type", "application/json"),
                    ("user-agent", "restson/" ++ VERSION)],
        body := some "1" } 7
      (by decide) (Or.inr rfl) (by decide)).2.1 rfl

/-! ### Claim C5 -/

theorem append3_ne_empty (s mid t : String) (hm : mid ≠ "") :
    s ++ mid ++ t ≠ "" := by
  intro h
  apply hm
  have h2 : s.data ++ mid.data ++ t.data = [] := by
    simpa [String.data_append] using congrArg String.data h
  rcases List.append_eq_nil.mp h2 with ⟨h3, _⟩
  rcases List.append_eq_nil.mp h3 with ⟨_, h4⟩
  exact String.ext (by simpa using h4)

theorem renderPairs_cons (p : String × String) (tl : List (String × String))
    (h : tl ≠ []) :
    renderPairs (p :: tl)
      = formUrlencode p.1 ++ "=" ++ formUrlencode p.2 ++ "&"
          ++ renderPairs tl := by
  cases tl with
  | nil => exact absurd rfl h
  | cons t ts => rfl

theorem foldl_appendPair_some (ps : List (String × String)) :
    ∀ (u : Url) (q : String), u.query = some q → q ≠ "" → ps ≠ [] →
      ps.foldl (fun (u : Url) (p : String × String) => u.appendPair p.1 p.2) u
        = { u with query := some (q ++ "&" ++ renderPairs ps) } := by
  induction ps with
  | nil => intro u q _ _ hps; exact absurd rfl hps
  | cons p tl ih =>
    intro u q hq hne _
    rw [List.foldl_cons]
    have happ : u.appendPair p.1 p.2
        = { u with
              query := some (q ++ "&" ++ (formUrlencode p.1 ++ "=" ++ formUrlencode p.2)) } := by
      simp [Url.appendPair, hq, hne]
    by_cases htl : tl = []
    · subst htl
      simp only [List.foldl_nil]
      rw [happ]
      rfl
    · rw [happ, ih _ _ rfl
            (append3_ne_empty q "&" _ (by decide)) htl,
          renderPairs_cons p tl htl]
      congr 2
      simp [String.append_assoc]

theorem foldl_appendPair_none (u : Url) (ps : List (String × String))
    (hq : u.query = none) (hps : ps ≠ []) :
    ps.foldl (fun (u : Url) (p : String × String) => u.appendPair p.1 p.2) u
      = { u with query := some (renderPairs ps) } := by
  cases ps with
  | nil => exact absurd rfl hps
  | cons p tl =>
    rw [List.foldl_cons]
    have happ : u.appendPair p.1 p.2
        = { u with
              query := some (formUrlencode p.1 ++ "=" ++ formUrlencode p.2) } := by
      simp [Url.appendPair, hq]
    by_cases htl : tl = []
    · subst htl
      rw [List.foldl_nil, happ]
      rfl
    · rw [happ, foldl_appendPair_some tl _ _ rfl
            (append3_ne_empty (formUrlencode p.1) "=" _ (by decide)) htl,
          renderPairs_cons p tl htl]

theorem as_str_with_query (u : Url) (s : String)
    (hq : u.query = none) (hf : u.fragment = none) :
    ({ u with query := some s } : Url).as_str = u.as_str ++ "?" ++ s := by
  simp [Url.as_str, hq, hf, String.append_assoc, String.append_empty]

/-- C5 (amended): the URL built for a request equals the base URL joined
with the resolved path (reference resolution), followed, when query pairs
are given, by a question mark and the pairs appended in the given order,
each rendered form-urlencoded as name=value (ASCII alphanumerics and the
asterisk, hyphen, dot and underscore copied, space rendered as a plus
sign, every other byte percent-encoded) and joined by ampersands, with
repeated names preserved and never deduplicated.  Pairs whose names and
values consist only of characters the encoding copies appear literally;
in general the rendering is the form-urlencoded one, not the literal
text. -/
theorem c5_make_uri (c : RestClient) (path : String)
    (ps : List (String × String)) (u : Url)
    (hj : c.baseurl.join path = some u) (hq : u.query = none)
    (hf : u.fragment = none) (hps : ps ≠ []) :
    c.make_uri path (some ps) = .ok (u.as_str ++ "?" ++ renderPairs ps) ∧
    c.make_uri path none = .ok u.as_str := by
  constructor
  · simp [RestClient.make_uri, hj, foldl_appendPair_none u ps hq hps,
          as_str_with_query u _ hq hf]
  · simp [RestClient.make_uri, hj]

/-- Witness for C5 at a concrete base, path and query with a repeated
name. -/
theorem c5_make_uri_witness :
    testClient.make_uri "anything" (some [("a", "1"), ("a", "2")])
      = .ok (anythingUrl.as_str ++ "?" ++ renderPairs [("a", "1"), ("a", "2")])
      ∧ testClient.make_uri "anything" none = .ok anythingUrl.as_str :=
  c5_make_uri testClient "anything" [("a", "1"), ("a", "2")] anythingUrl
    (by decide) rfl rfl (by decide)

/-- C5 counterexample: a query value containing a space is not rendered
literally as name=value; it is form-urlencoded (the space becomes a plus
sign), so the built URL differs from the literal rendering the claim
states. -/
theorem c5_counterexample :
    testClient.make_uri "anything" (some [("a", "b c")])
      = .ok "http://x.test/anything?a=b+c" ∧
    "http://x.test/anything?a=b+c" ≠ "http://x.test/anything?a=b c" := by
  constructor <;> decide

/-! ### Claim C6 -/

theorem attachBody_from_empty_get (send : Bool) (body : Option String)
    (m : Method) (uri : String) (r1 : Request) (q : String)
    (h : attachBody send body
        { method := m, uri := uri, headers := [], body := none } = .ok r1)
    (hq1 : lowerStr q ≠ "content-length")
    (hq2 : lowerStr q ≠ "content-type") :
    HeaderMap.get r1.headers q = none := by
  cases body with
  | none =>
    simp only [attachBody] at h
    rw [← Except.ok.inj h]
    rfl
  | some b =>
    rcases attachBody_ok_cases send b _ r1 h with ⟨_, hr⟩ | ⟨_, _, hr⟩
    · rw [hr]
      simp only []
      rw [HeaderMap.get_insert, if_neg (by rw [ct_lower]; exact hq2),
          HeaderMap.get_insert, if_neg (by rw [cl_lower]; exact hq1)]
      rfl
    · rw [hr]
      rfl

/-- C6: custom headers from the client configuration are applied after the
body content headers and the Authorization header and replace any
same-named header those earlier steps set; if no user-agent header is
present after all of that, the default restson/VERSION user agent is set;
and a client whose custom headers were cleared still sends the default
user agent. -/
theorem c6_header_precedence (c : RestClient) (m : Method)
    (pathRes : Except Error String) (query : Option (List (String × String)))
    (body : Option String) (req reqc : Request)
    (hwf : HeaderMap.WF c.headers)
    (h : c.make_request m pathRes query body = .ok req)
    (hc : c.clear_headers.make_request m pathRes query body = .ok reqc) :
    (∀ q v, HeaderMap.get c.headers q = some v →
       HeaderMap.get req.headers q = some v) ∧
    (c.headers.hasKey "user-agent" = false →
       HeaderMap.get req.headers "user-agent"
         = some ("restson/" ++ VERSION)) ∧
    HeaderMap.get reqc.headers "user-agent" = some ("restson/" ++ VERSION) := by
  obtain ⟨uri, r1, r2, h1, h2, hfin⟩ :=
    make_request_ok_elim c m pathRes query body req h
  obtain ⟨_, _, _, hh2⟩ := attachAuth_ok_elim c.auth r1 r2 h2
  obtain ⟨uric, r1c, r2c, h1c, h2c, hfinc⟩ :=
    make_request_ok_elim c.clear_headers m pathRes query body reqc hc
  obtain ⟨_, _, _, hh2c⟩ := attachAuth_ok_elim c.clear_headers.auth r1c r2c h2c
  have hr2ua : HeaderMap.get r2.headers "user-agent" = none := by
    rw [hh2 _ (by rw [ua_lower]; decide)]
    exact attachBody_from_empty_get c.send_null_body body m uri r1 _ h1
      (by rw [ua_lower]; decide) (by rw [ua_lower]; decide)
  have hr2cua : HeaderMap.get r2c.headers "user-agent" = none := by
    rw [hh2c _ (by rw [ua_lower]; decide)]
    exact attachBody_from_empty_get c.clear_headers.send_null_body body m
      uric r1c _ h1c (by rw [ua_lower]; decide) (by rw [ua_lower]; decide)
  refine ⟨fun q v hv => ?_, fun hua => ?_, ?_⟩
  · rw [hfin]
    exact finishHeaders_custom_wins c.headers r2 q v hwf hv
  · have hnone : ∀ p ∈ c.headers, p.1 ≠ "user-agent" := by
      have h0 : HeaderMap.lookupKey c.headers (lowerStr "user-agent") = none := by
        unfold HeaderMap.hasKey at hua
        cases hl : HeaderMap.lookupKey c.headers (lowerStr "user-agent") with
        | none => rfl
        | some w => rw [hl] at hua; simp at hua
      have := (HeaderMap.lookupKey_eq_none_iff c.headers _).mp h0
      intro p hp
      have hx := this p hp
      rwa [ua_lower] at hx
    have hcust : ∀ p ∈ c.headers, lowerStr p.1 ≠ "user-agent" := by
      intro p hp
      rw [hwf.2 p hp]
      exact hnone p hp
    rw [hfin]
    exact finishHeaders_default_ua c.headers r2 hcust hr2ua
  · rw [hfinc]
    exact finishHeaders_default_ua c.clear_headers.headers r2c
      (by intro p hp; simp [RestClient.clear_headers] at hp) hr2cua

/-- Witness for C6: a configured content-type header overrides the
body-step header in the outgoing request, and after clearing the headers
the default user agent is present. -/
theorem c6_header_precedence_witness :
    HeaderMap.get [("content-length", "1"), ("content-type", "text/xml"),
                   ("user-agent", "restson/" ++ VERSION)] "content-type"
      = some "text/xml" ∧
    HeaderMap.get [("content-length", "1"),
                   ("content-type", "application/json"),
                   ("user-agent", "restson/" ++ VERSION)] "user-agent"
      = some ("restson/" ++ VERSION) :=
  ⟨(c6_header_precedence nullBodyXmlClient .POST (.ok "anything") none
      (some "x")
      { method := .POST, uri := "http://x.test/anything",
        headers := [("content-length", "1"), ("content-type", "text/xml"),
                    ("user-agent", "restson/" ++ VERSION)],
        body := some "x" }
      { method := .POST, uri := "http://x.test/anything",
        headers := [("content-length", "1"),
                    ("content-type", "application/json"),
                    ("user-agent", "restson/" ++ VERSION)],
        body := some "x" }
      (by constructor <;> decide) (by decide) (by decide)).1
    "content-type" "text/xml" (by decide),
   (c6_header_precedence nullBodyXmlClient .POST (.ok "anything") none
      (some "x")
      { method := .POST, uri := "http://x.test/anything",
        headers := [("content-length", "1"), ("content-type", "text/xml"),
                    ("user-agent", "restson/" ++ VERSION)],
        body := some "x" }
      { method := .POST, uri := "http://x.test/anything",
        headers := [("content-length", "1"),
                    ("content-type", "application/json"),
                    ("user-agent", "restson/" ++ VERSION)],
        body := some "x" }
      (by constructor <;> decide) (by decide) (by decide)).2.2⟩

/-! ### Claim C7 -/

/-- C7: client construction (new, Builder::build, with_builder) succeeds
and stores the parsed base URL together with the builder configuration
exactly when the string parses as an absolute URL, and fails with
UrlError otherwise; construction is a pure function of its arguments, so
no network activity occurs. -/
theorem c7_construction (url : String) (b : Builder) :
    (∀ u, Url.parse url = some u →
       RestClient.with_builder url b
         = .ok { baseurl := u, auth := none, headers := [],
                 timeout := b.timeout, send_null_body := b.send_null_body,
                 body_wash_fn := id } ∧
       RestClient.new url
         = .ok { baseurl := u, auth := none, headers := [],
                 timeout := Duration.from_secs u64Max,
                 send_null_body := true, body_wash_fn := id }) ∧
    (Url.parse url = none →
       RestClient.with_builder url b = .error .UrlError ∧
       RestClient.new url = .error .UrlError) ∧
    b.build url = RestClient.with_builder url b := by
  refine ⟨fun u hu => ?_, fun hn => ?_, rfl⟩
  · constructor <;>
      simp [RestClient.with_builder, RestClient.new, Builder.default, hu]
  · constructor <;>
      simp [RestClient.with_builder, RestClient.new, hn]

/-- Witness for C7: a well-formed absolute base URL constructs the
expected client and a relative string fails with UrlError. -/
theorem c7_construction_witness :
    RestClient.new "http://x.test/" = .ok testClient ∧
    RestClient.new "x.test" = .error .UrlError :=
  ⟨((c7_construction "http://x.test/" Builder.default).1 testBase
      (by decide)).2,
   ((c7_construction "x.test" Builder.default).2.1 (by decide)).2⟩

/-! ### Claim C8 -/

/-- C8: set_header validates the value, returning InvalidValue and
leaving the client unchanged when it is not a legal header value; a legal
value is inserted into the default header map with unique keys and
last-write-wins, so a second set_header with the same name replaces the
previous value. -/
theorem c8_set_header (c : RestClient) (n v v2 : String) :
    (headerValueFromStr v = none →
       c.set_header n v = (c, some .InvalidValue)) ∧
    (headerValueFromStr v = some v →
       c.set_header n v
         = ({ c with headers := c.headers.insert n v }, none)) ∧
    (headerValueFromStr v = some v → headerValueFromStr v2 = some v2 →
       HeaderMap.get (((c.set_header n v).1.set_header n v2).1).headers n
         = some v2) := by
  refine ⟨fun hn => ?_, fun hv => ?_, fun hv hv2 => ?_⟩
  · simp [RestClient.set_header, hn]
  · simp [RestClient.set_header, hv]
  · simp [RestClient.set_header, hv, hv2]
    rw [HeaderMap.get_insert, if_pos rfl]

/-- Witness for C8: a header value containing a newline is rejected with
the client unchanged, and two successive set_header calls with the same
name leave the second value. -/
theorem c8_set_header_witness :
    testClient.set_header "X-Test" "a\nb" = (testClient, some .InvalidValue) ∧
    HeaderMap.get
        (((testClient.set_header "X-Test" "1").1.set_header "X-Test" "2").1).headers
        "X-Test" = some "2" :=
  ⟨(c8_set_header testClient "X-Test" "a\nb" "2").1 (by decide),
   (c8_set_header testClient "X-Test" "1" "2").2.2 (by decide) (by decide)⟩

/-! ### Claim C9 -/

/-- C9: every verb method of the blocking facade returns exactly the
result of the wrapped asynchronous client's corresponding method on the
same arguments and configuration; the owned current-thread runtime only
drives that one call to completion (block_on returns the call's outcome
unchanged). -/
theorem c9_blocking_facade (T K : Type) (b : Blocking.RestClient)
    (pathRes : Except Error String) (dataSer : Except Nat String)
    (query : List (String × String)) (fromStr : String → Except Nat T)
    (fromStrK : String → Except Nat K) (work : WorkResult) (tf : Bool) :
    b.get pathRes fromStr work tf
      = b.inner_client.get pathRes fromStr work tf ∧
    b.get_with pathRes query fromStr work tf
      = b.inner_client.get_with pathRes query fromStr work tf ∧
    b.post pathRes dataSer work tf
      = b.inner_client.post pathRes dataSer work tf ∧
    b.put pathRes dataSer work tf
      = b.inner_client.put pathRes dataSer work tf ∧
    b.patch pathRes dataSer work tf
      = b.inner_client.patch pathRes dataSer work tf ∧
    b.post_with pathRes dataSer query work tf
      = b.inner_client.post_with pathRes dataSer query work tf ∧
    b.put_with pathRes dataSer query work tf
      = b.inner_client.put_with pathRes dataSer query work tf ∧
    b.patch_with pathRes dataSer query work tf
      = b.inner_client.patch_with pathRes dataSer query work tf ∧
    b.post_capture pathRes dataSer fromStrK work tf
      = b.inner_client.post_capture pathRes dataSer fromStrK work tf ∧
    b.put_capture pathRes dataSer fromStrK work tf
      = b.inner_client.put_capture pathRes dataSer fromStrK work tf ∧
    b.patch_capture pathRes dataSer fromStrK work tf
      = b.inner_client.patch_capture pathRes dataSer fromStrK work tf ∧
    b.post_capture_with pathRes dataSer query fromStrK work tf
      = b.inner_client.post_capture_with pathRes dataSer query fromStrK work tf ∧
    b.put_capture_with pathRes dataSer query fromStrK work tf
      = b.inner_client.put_capture_with pathRes dataSer query fromStrK work tf ∧
    b.patch_capture_with pathRes dataSer query fromStrK work tf
      = b.inner_client.patch_capture_with pathRes dataSer query fromStrK work tf ∧
    b.delete pathRes work tf = b.inner_client.delete pathRes work tf ∧
    b.delete_with pathRes dataSer query work tf
      = b.inner_client.delete_with pathRes dataSer query work tf ∧
    b.delete_capture pathRes dataSer fromStrK work tf
      = b.inner_client.delete_capture pathRes dataSer fromStrK work tf ∧
    b.delete_capture_with pathRes dataSer query fromStrK work tf
      = b.inner_client.delete_capture_with pathRes dataSer query fromStrK work tf :=
  ⟨rfl, rfl, rfl, rfl, rfl, rfl, rfl, rfl, rfl, rfl, rfl, rfl, rfl, rfl,
   rfl, rfl, rfl, rfl⟩

/-! ### Claim C10 -/

/-- C10 (amended): whenever the built request carries a body, and the
client's custom headers do not name content-length, the content-length
header value equals the decimal representation of the byte length of the
serialized body string that is transmitted. -/
theorem c10_content_length (c : RestClient) (m : Method)
    (pathRes : Except Error String) (query : Option (List (String × String)))
    (b : String) (req : Request)
    (hcl : ∀ p ∈ c.headers, lowerStr p.1 ≠ "content-length")
    (h : c.make_request m pathRes query (some b) = .ok req)
    (hb : req.body = some b) :
    HeaderMap.get req.headers "content-length"
      = some (toString (strBytes b).length) := by
  obtain ⟨uri, r1, r2, h1, h2, hfin⟩ :=
    make_request_ok_elim c m pathRes query (some b) req h
  obtain ⟨hb2, _, _, hh2⟩ := attachAuth_ok_elim c.auth r1 r2 h2
  have hclq : ∀ p ∈ c.headers, lowerStr p.1 ≠ lowerStr "content-length" := by
    intro p hp
    rw [cl_lower]
    exact hcl p hp
  rcases attachBody_ok_cases c.send_null_body b _ r1 h1 with
    ⟨_, hr⟩ | ⟨_, _, hr⟩
  · rw [hfin, finishHeaders_absent c.headers r2 _ hclq
          (by rw [cl_lower]; decide),
        hh2 _ (by rw [cl_lower]; decide), hr]
    simp only []
    rw [HeaderMap.get_insert, if_neg (by rw [cl_lower, ct_lower]; decide),
        HeaderMap.get_insert, if_pos rfl]
  · exfalso
    have hnone : req.body = none := by
      rw [hfin, finishHeaders_body, hb2, hr]
    rw [hb] at hnone
    exact Option.noConfusion hnone

/-- C10 counterexample: a configured custom content-length header
replaces the value computed from the body, so the final content-length
(999) differs from the byte length (3) of the transmitted body abc. -/
theorem c10_counterexample :
    customLengthClient.make_request .POST (.ok "anything") none (some "abc")
      = .ok { method := .POST, uri := "http://x.test/anything",
              headers := [("content-type", "application/json"),
                          ("content-length", "999"),
                          ("user-agent", "restson/" ++ VERSION)],
              body := some "abc" } ∧
    HeaderMap.get [("content-type", "application/json"),
                   ("content-length", "999"),
                   ("user-agent", "restson/" ++ VERSION)] "content-length"
      = some "999" ∧
    some "999" ≠ some (toString (strBytes "abc").length) := by
  refine ⟨?_, ?_, ?_⟩ <;> decide

/-- Witness for C10: a body consisting of one two-byte character yields
content-length 2 (bytes, not characters). -/
theorem c10_content_length_witness :
    HeaderMap.get eAcuteRequest.headers "content-length"
      = some (toString (strBytes "é").length) :=
  c10_content_length testClient .POST (.ok "anything") none "é" eAcuteRequest
    (by simp [testClient]) (by decide) rfl

end Restson
